import Mathlib

/-!
Verification of the metabolomics heatmap pipeline (`heatmap_app.py`).

The embedding follows the source: a `Table` is the loaded CSV frame
(column names plus rows mapping column names to raw cells), the matrix
builder mirrors lines 62-71 (column projection, label construction with
`fillna` of the compound-name column, numeric coercion with
`to_numeric(errors=coerce).fillna(0)`), the transform pipeline mirrors
lines 74-81 (`log10(v+1)`, then row standardization with the sample
standard deviation `std(ddof=1)` and the `replace(0, 1)` substitution,
where a missing standard deviation — NaN for rows shorter than two —
propagates into every cell of the row), and the export step mirrors the
single try/except of lines 109-122.
NaN is represented by `none` in `Option ℝ`; all raw cells coerce to
finite values, so NaN can only enter through the standard deviation.
-/

/-- A raw cell of the loaded table: a string, a number, or missing (NA). -/
inductive Cell where
  | str (s : String)
  | num (q : ℚ)
  | missing
deriving DecidableEq, Repr

/-- The loaded table: ordered column names, and rows mapping a column name
to the raw cell the row holds in that column. -/
structure Table where
  cols : List String
  rows : List (String → Cell)

/-- The labeled numeric matrix handed to rendering. -/
structure LabeledMatrix where
  rowLabels : List String
  colNames : List String
  values : List (List ℚ)

/-- Value of a run of decimal digits. -/
def digitsToNat (cs : List Char) : Nat :=
  cs.foldl (fun a c => a * 10 + (c.toNat - 48)) 0

/-- Parse a nonempty all-digit run. -/
def parseNatDigits (cs : List Char) : Option Nat :=
  if cs.isEmpty then none
  else if cs.all Char.isDigit then some (digitsToNat cs) else none

/-- Parse an optionally signed integer (exponent part). -/
def parseInt (cs : List Char) : Option Int :=
  match cs with
  | '+' :: r => (parseNatDigits r).map Int.ofNat
  | '-' :: r => (parseNatDigits r).map fun n => -(n : Int)
  | r => (parseNatDigits r).map Int.ofNat

/-- Parse an unsigned decimal mantissa: digits, optionally with a decimal
point, at least one digit overall. -/
def parseDec (cs : List Char) : Option ℚ :=
  match cs.span Char.isDigit with
  | (intPart, []) =>
      if intPart.isEmpty then none else some (digitsToNat intPart : ℚ)
  | (intPart, '.' :: rest) =>
      match rest.span Char.isDigit with
      | (fracPart, []) =>
          if intPart.isEmpty && fracPart.isEmpty then none
          else some ((digitsToNat intPart : ℚ) +
                     (digitsToNat fracPart : ℚ) / (10 : ℚ) ^ fracPart.length)
      | _ => none
  | _ => none

/-- Parse an optionally signed decimal mantissa. -/
def parseSignedDec (cs : List Char) : Option ℚ :=
  match cs with
  | '+' :: r => parseDec r
  | '-' :: r => (parseDec r).map Neg.neg
  | r => parseDec r

/-- Split a character list at the first exponent marker (e or E). -/
def splitExp (cs : List Char) : List Char × Option (List Char) :=
  match cs.span (fun c => !(c == 'e' || c == 'E')) with
  | (m, []) => (m, none)
  | (m, _ :: r) => (m, some r)

/-- Surrounding spaces, ignored by the float conversion. -/
def trimSpaces (s : String) : List Char :=
  ((s.toList.dropWhile (· == ' ')).reverse.dropWhile (· == ' ')).reverse

/-- The finite-number grammar of the string parsing of `pd.to_numeric`:
surrounding spaces are ignored; the value is a signed decimal mantissa
with an optional signed exponent. Returns `none` when the text is not a
finite decimal. The infinity words the conversion also accepts are
recognized separately by `parseFloat`, which is the full parser. -/
def parseNum (s : String) : Option ℚ :=
  let cs := trimSpaces s
  match splitExp cs with
  | (m, none) => parseSignedDec m
  | (m, some e) =>
      match parseSignedDec m, parseInt e with
      | some q, some z => some (q * (10 : ℚ) ^ z)
      | _, _ => none

/-- The infinity words the float conversion accepts, case-insensitively:
`inf` and `infinity`. -/
def infWord (cs : List Char) : Bool :=
  let l := cs.map Char.toLower
  l == ['i', 'n', 'f'] || l == ['i', 'n', 'f', 'i', 'n', 'i', 't', 'y']

/-- A coerced cell value as `pd.to_numeric` produces it after `fillna(0)`:
a finite number, or one of the two infinities (which `fillna` keeps,
since it only replaces NaN). -/
inductive FloatVal where
  | fin (q : ℚ)
  | pinf
  | ninf
deriving DecidableEq, Repr

/-- The optional leading sign, dropped before the infinity-word test. -/
def stripSign (cs : List Char) : List Char :=
  match cs with
  | '+' :: r => r
  | '-' :: r => r
  | r => r

/-- Whether the trimmed text starts with a minus sign. -/
def isNegSign (cs : List Char) : Bool :=
  match cs with
  | '-' :: _ => true
  | _ => false

/-- The full string parsing of `pd.to_numeric`: surrounding spaces are
ignored; an optionally signed infinity word gives the corresponding
infinity, and otherwise the finite grammar of `parseNum` decides. -/
def parseFloat (s : String) : Option FloatVal :=
  if infWord (stripSign (trimSpaces s)) then
    some (if isNegSign (trimSpaces s) then .ninf else .pinf)
  else (parseNum s).map .fin

/-- Line 71 in full: `pd.to_numeric(errors=coerce)` followed by
`fillna(0)`. A numeric cell keeps its value; a string cell is parsed,
non-parsing text giving NaN which `fillna` turns into 0, while a parsed
infinity survives `fillna`; a missing cell gives NaN, filled to 0.
Total: coercion never raises. -/
def toNumericFloat (c : Cell) : FloatVal :=
  match c with
  | .num q => .fin q
  | .str s => (parseFloat s).getD (.fin 0)
  | .missing => .fin 0

/-- Line 71 restricted to finite coercions, the form the ℚ-valued matrix
uses. `toNumeric_agrees_fin` shows it agrees with the faithful
`toNumericFloat` whenever the latter is finite; an infinity-word cell,
which real pandas keeps as an infinity, is outside this restriction. -/
def toNumeric (c : Cell) : ℚ :=
  match c with
  | .num q => q
  | .str s => (parseNum s).getD 0
  | .missing => 0

/-- When the full parser fails, the finite parser fails too. -/
lemma parseFloat_none_parseNum (s : String) (h : parseFloat s = none) :
    parseNum s = none := by
  unfold parseFloat at h
  split at h
  · exact absurd h (by simp)
  · exact Option.map_eq_none'.mp h

/-- When the full parser yields a finite value, the finite parser yields
the same value. -/
lemma parseFloat_fin_parseNum (s : String) (q : ℚ)
    (h : parseFloat s = some (.fin q)) : parseNum s = some q := by
  unfold parseFloat at h
  split at h
  · exfalso
    have h' := Option.some.inj h
    split at h' <;> exact FloatVal.noConfusion h'
  · obtain ⟨p, hp, hfq⟩ := Option.map_eq_some'.mp h
    rw [hp, FloatVal.fin.inj hfq]

/-- The finite restriction agrees with the faithful coercion on every
cell whose faithful coercion is finite. -/
lemma toNumeric_agrees_fin (c : Cell) (q : ℚ)
    (h : toNumericFloat c = .fin q) : toNumeric c = q := by
  cases c with
  | num p =>
      simp [toNumericFloat] at h
      simpa [toNumeric] using h
  | missing =>
      simp [toNumericFloat] at h
      simpa [toNumeric] using h
  | str s =>
      cases hp : parseFloat s with
      | none =>
          have hq : FloatVal.fin 0 = .fin q := by
            simpa [toNumericFloat, hp] using h
          simp [toNumeric, parseFloat_none_parseNum s hp,
            ← FloatVal.fin.inj hq]
      | some v =>
          have hv : v = .fin q := by
            simpa [toNumericFloat, hp] using h
          subst hv
          simp [toNumeric, parseFloat_fin_parseNum s q hp]

/-- `fillna` on a single cell: a missing cell becomes the given string. -/
def fillnaCell (c : Cell) (d : String) : Cell :=
  match c with
  | .missing => .str d
  | c => c

/-- `astype(str)` on a single cell (a missing cell prints as `nan`). -/
def cellStr (c : Cell) : String :=
  match c with
  | .str s => s
  | .num q => toString q
  | .missing => "nan"

/-- Lines 65-66: the display name of a row, built from the compound-name
cell (missing values first filled with `Unknown`) and the feature-id cell. -/
def displayName (nameCell idCell : Cell) : String :=
  cellStr (fillnaCell nameCell "Unknown") ++ " (" ++ cellStr idCell ++ ")"

/-- Lines 62-71: the matrix builder. Row labels come from the display
name, the numeric block is the projection onto the sample columns in
their selected order, every cell coerced to a number. -/
def buildMatrix (t : Table) (nameCol idCol : String)
    (sampleCols : List String) : LabeledMatrix :=
  { rowLabels := t.rows.map fun r => displayName (r nameCol) (r idCol)
    colNames := sampleCols
    values := t.rows.map fun r => sampleCols.map fun c => toNumeric (r c) }

/-- Row mean, as `DataFrame.mean(axis=1)` computes it on finite rows. -/
noncomputable def rowMean (xs : List ℝ) : ℝ :=
  xs.sum / xs.length

/-- Sample variance with `ddof = 1`, the quantity under the square root of
`DataFrame.std(axis=1)`. Only meaningful for rows of length at least two;
`rowStd` guards the shorter rows. -/
noncomputable def sampleVar (xs : List ℝ) : ℝ :=
  (xs.map (fun v => (v - rowMean xs) ^ 2)).sum / ((xs.length : ℝ) - 1)

/-- Line 80: `DataFrame.std(axis=1)` with the default `ddof = 1`. For a
row with fewer than two values the sample standard deviation is NaN
(`none`); otherwise it is the square root of the sample variance. -/
noncomputable def rowStd (xs : List ℝ) : Option ℝ :=
  if xs.length < 2 then none else some (Real.sqrt (sampleVar xs))

/-- Line 80: `.replace(0, 1)` on the standard deviation. Only an exact
zero is replaced; NaN (`none`) passes through untouched. -/
noncomputable def replaceZero (s : ℝ) : ℝ :=
  if s = 0 then 1 else s

/-- Line 81 applied to one row: subtract the row mean and divide by the
(zero-replaced) row standard deviation. Division by a NaN standard
deviation makes every cell of the row NaN. -/
noncomputable def standardizeRow (xs : List ℝ) : List (Option ℝ) :=
  match rowStd xs with
  | none => xs.map fun _ => none
  | some s => xs.map fun v => some ((v - rowMean xs) / replaceZero s)

/-- Line 75: the log compression of one cell, `log10(v + 1)`. -/
noncomputable def log10p1 (v : ℝ) : ℝ :=
  Real.log (v + 1) / Real.log 10

/-- Line 75 on the whole matrix. -/
noncomputable def logMatrix (m : List (List ℝ)) : List (List ℝ) :=
  m.map (List.map log10p1)

/-- Lines 79-81 on the whole matrix. -/
noncomputable def standardizeMatrix (m : List (List ℝ)) : List (List (Option ℝ)) :=
  m.map standardizeRow

/-- Injection of a NaN-free matrix into the NaN-aware value type. -/
def someMatrix (m : List (List ℝ)) : List (List (Option ℝ)) :=
  m.map (List.map some)

/-- Lines 74-81: the transform pipeline. Log compression first (if
enabled), then row standardization (if enabled) on whatever log
compression produced. -/
noncomputable def transform (useLog useNorm : Bool) (m : List (List ℝ)) :
    List (List (Option ℝ)) :=
  let m1 := if useLog then logMatrix m else m
  if useNorm then standardizeMatrix m1 else someMatrix m1

/-- The numeric block of a built matrix, over the reals. -/
noncomputable def matR (m : LabeledMatrix) : List (List ℝ) :=
  m.values.map (List.map (Rat.cast : ℚ → ℝ))

/-- A list of nonnegative reals summing to zero is all zero. -/
lemma all_zero_of_sum_zero (l : List ℝ) (hpos : ∀ x ∈ l, 0 ≤ x)
    (hsum : l.sum = 0) : ∀ x ∈ l, x = 0 := by
  induction l with
  | nil => intro x hx; cases hx
  | cons a t ih =>
      have hat : 0 ≤ t.sum := List.sum_nonneg fun x hx => hpos x (.tail _ hx)
      have ha : 0 ≤ a := hpos a (.head _)
      have h0 : a = 0 ∧ t.sum = 0 := by
        rw [← add_eq_zero_iff_of_nonneg ha hat]
        simpa using hsum
      intro x hx
      cases hx with
      | head => exact h0.1
      | tail _ hx => exact ih (fun y hy => hpos y (.tail _ hy)) h0.2 x hx

/-- Subtracting a constant from every element shifts the sum. -/
lemma sum_map_sub (l : List ℝ) (m : ℝ) :
    (l.map fun v => v - m).sum = l.sum - l.length * m := by
  induction l with
  | nil => simp
  | cons a t ih => simp [ih]; ring

/-- Dividing every element by a constant divides the sum. -/
lemma sum_map_div (l : List ℝ) (c : ℝ) :
    (l.map fun x => x / c).sum = l.sum / c := by
  induction l with
  | nil => simp
  | cons a t ih => simp [ih, add_div]

/-- The sample variance of a row of length at least two is nonnegative. -/
lemma sampleVar_nonneg (xs : List ℝ) (h2 : 2 ≤ xs.length) :
    0 ≤ sampleVar xs := by
  unfold sampleVar
  apply div_nonneg
  · refine List.sum_nonneg ?_
    intro x hx
    obtain ⟨v, -, rfl⟩ := List.mem_map.mp hx
    positivity
  · have : (2 : ℝ) ≤ (xs.length : ℝ) := by exact_mod_cast h2
    linarith

/-- A concrete three-column table with one row, used to instantiate the
general theorems. -/
def sampleTable : Table :=
  { cols := ["ID", "Name", "S1"]
    rows := [fun c =>
      if c = "ID" then .str "F001"
      else if c = "Name" then .str "Glucose"
      else if c = "S1" then .num 5
      else .missing] }

/-- C1: for every table and every selection with a non-empty sample set,
the built matrix has exactly one row per table row and exactly the
selected sample columns, in selection order. -/
theorem buildMatrix_shape (t : Table) (nameCol idCol : String)
    (sampleCols : List String) (hne : sampleCols ≠ []) :
    (buildMatrix t nameCol idCol sampleCols).values.length = t.rows.length ∧
    (buildMatrix t nameCol idCol sampleCols).colNames = sampleCols ∧
    ∀ row ∈ (buildMatrix t nameCol idCol sampleCols).values,
      row.length = sampleCols.length := by
  refine ⟨by simp [buildMatrix], rfl, ?_⟩
  intro row hrow
  simp only [buildMatrix, List.mem_map] at hrow
  obtain ⟨r, -, rfl⟩ := hrow
  simp

/-- Witness for C1 at a concrete table and selection. -/
theorem buildMatrix_shape_witness :
    (buildMatrix sampleTable "Name" "ID" ["S1"]).values.length =
      sampleTable.rows.length ∧
    (buildMatrix sampleTable "Name" "ID" ["S1"]).colNames = ["S1"] ∧
    ∀ row ∈ (buildMatrix sampleTable "Name" "ID" ["S1"]).values,
      row.length = ["S1"].length :=
  buildMatrix_shape sampleTable "Name" "ID" ["S1"] (by decide)

/-- C2: numeric coercion is total and never fails. A missing cell and a
string that does not parse (the empty string included) become exactly 0;
a string that parses — the infinity words included — becomes its parsed
value; a numeric cell keeps its value. Concretely, `inf`, `-inf` and
`Infinity` coerce to the infinities (which `fillna(0)` keeps), `abc`
coerces to 0 and `5` to 5. -/
theorem toNumericFloat_total_coercion :
    toNumericFloat Cell.missing = .fin 0 ∧
    toNumericFloat (Cell.str "") = .fin 0 ∧
    (∀ s : String, parseFloat s = none → toNumericFloat (Cell.str s) = .fin 0) ∧
    (∀ (s : String) (v : FloatVal),
      parseFloat s = some v → toNumericFloat (Cell.str s) = v) ∧
    (∀ q : ℚ, toNumericFloat (Cell.num q) = .fin q) ∧
    toNumericFloat (Cell.str "inf") = .pinf ∧
    toNumericFloat (Cell.str "-inf") = .ninf ∧
    toNumericFloat (Cell.str "Infinity") = .pinf ∧
    toNumericFloat (Cell.str "abc") = .fin 0 ∧
    toNumericFloat (Cell.str "5") = .fin 5 := by
  refine ⟨rfl, by decide, ?_, ?_, fun q => rfl, by decide, by decide,
    by decide, by decide, by decide⟩
  · intro s h; simp [toNumericFloat, h]
  · intro s v h; simp [toNumericFloat, h]

/-- C4: every row label of the built matrix is the compound-name cell
(missing values first replaced by `Unknown`) rendered as text, followed by
the feature-id cell in parentheses; in particular a missing name with id
`F001` labels the row `Unknown (F001)`. -/
theorem rowLabel_format (t : Table) (nameCol idCol : String)
    (sampleCols : List String) :
    (buildMatrix t nameCol idCol sampleCols).rowLabels =
      t.rows.map (fun r =>
        cellStr (fillnaCell (r nameCol) "Unknown") ++ " (" ++
          cellStr (r idCol) ++ ")") ∧
    displayName Cell.missing (Cell.str "F001") = "Unknown (F001)" :=
  ⟨rfl, rfl⟩

/-- The head label of the line-62 selection list `[name, id] + samples`
is duplicated exactly when it coincides with the id column or is itself a
sample column. -/
lemma one_lt_count_head (c d : String) (l : List String) :
    1 < (c :: d :: l).count c ↔ (d = c ∨ c ∈ l) := by
  rw [List.count_cons_self]
  constructor
  · intro h
    have h0 : 0 < (d :: l).count c := by omega
    rcases List.mem_cons.mp (List.count_pos_iff.mp h0) with h1 | h1
    · exact Or.inl h1.symm
    · exact Or.inr h1
  · intro h
    have h0 : 0 < (d :: l).count c := by
      apply List.count_pos_iff.mpr
      rcases h with h | h
      · exact List.mem_cons.mpr (Or.inl h.symm)
      · exact List.mem_cons.mpr (Or.inr h)
    omega

/-- Same for the label in second position of the selection list. -/
lemma one_lt_count_second (c d : String) (l : List String) :
    1 < (c :: d :: l).count d ↔ (c = d ∨ d ∈ l) := by
  by_cases hcd : c = d
  · subst hcd
    rw [List.count_cons_self, List.count_cons_self]
    simp
  · rw [List.count_cons, List.count_cons_self]
    have hbeq : (c == d) = false := by simpa using hcd
    rw [hbeq]
    simp only [Bool.false_eq_true, if_false, add_zero]
    constructor
    · intro h
      exact Or.inr (List.count_pos_iff.mp (by omega))
    · intro h
      rcases h with h | h
      · exact absurd h hcd
      · have h0 : 0 < l.count d := List.count_pos_iff.mpr h
        omega

/-- Lines 62-71 with the pandas duplicate-label semantics of line 62:
`df[[name, id] + samples]` keeps one column per entry of the selection
list, so a label occurring more than once yields a duplicate-labeled
frame; the single-column reads and the `Display_Name` assignment of
lines 65-67 then raise on the duplicated axis, and the outer handler of
lines 130-131 reports the failure as a Critical Error — no matrix is
built. Only an unambiguous selection reaches line 68 and produces the
matrix of `buildMatrix`. -/
def buildMatrixChecked (t : Table) (nameCol idCol : String)
    (sampleCols : List String) : Except String LabeledMatrix :=
  if 1 < (nameCol :: idCol :: sampleCols).count nameCol ∨
      1 < (nameCol :: idCol :: sampleCols).count idCol then
    .error "Critical Error"
  else .ok (buildMatrix t nameCol idCol sampleCols)

/-- C6 counterexample: selecting the identifier column as one of the
sample columns does NOT produce a numeric matrix with that column
excluded — the duplicated `ID` label aborts the run with a Critical
Error, and no numeric matrix of any column set is produced at all. -/
theorem overlap_selection_counterexample :
    buildMatrixChecked sampleTable "Name" "ID" ["ID", "S1"] =
      .error "Critical Error" ∧
    ∀ m : LabeledMatrix,
      buildMatrixChecked sampleTable "Name" "ID" ["ID", "S1"] ≠ .ok m := by
  refine ⟨rfl, ?_⟩
  intro m hm
  rw [show buildMatrixChecked sampleTable "Name" "ID" ["ID", "S1"] =
      .error "Critical Error" from rfl] at hm
  exact Except.noConfusion hm

/-- C6 amended: an identifier or label column that overlaps the sample
set (or identifier coinciding with label) aborts the run with the
Critical Error of line 131, so no numeric matrix is produced; only a
non-overlapping selection builds the matrix, and its columns are then
exactly the sample columns, the identifier and label columns not among
them. -/
theorem overlap_selection_critical_error (t : Table) (nameCol idCol : String)
    (sampleCols : List String) :
    ((idCol ∈ sampleCols ∨ nameCol ∈ sampleCols ∨ idCol = nameCol) →
      buildMatrixChecked t nameCol idCol sampleCols =
        .error "Critical Error") ∧
    (idCol ∉ sampleCols → nameCol ∉ sampleCols → idCol ≠ nameCol →
      buildMatrixChecked t nameCol idCol sampleCols =
        .ok (buildMatrix t nameCol idCol sampleCols) ∧
      (buildMatrix t nameCol idCol sampleCols).colNames = sampleCols ∧
      idCol ∉ (buildMatrix t nameCol idCol sampleCols).colNames ∧
      nameCol ∉ (buildMatrix t nameCol idCol sampleCols).colNames) := by
  constructor
  · intro h
    have hc : 1 < (nameCol :: idCol :: sampleCols).count nameCol ∨
        1 < (nameCol :: idCol :: sampleCols).count idCol := by
      rcases h with h | h | h
      · exact Or.inr ((one_lt_count_second nameCol idCol sampleCols).mpr
          (Or.inr h))
      · exact Or.inl ((one_lt_count_head nameCol idCol sampleCols).mpr
          (Or.inr h))
      · exact Or.inl ((one_lt_count_head nameCol idCol sampleCols).mpr
          (Or.inl h))
    unfold buildMatrixChecked
    rw [if_pos hc]
  · intro h1 h2 h3
    have hc : ¬(1 < (nameCol :: idCol :: sampleCols).count nameCol ∨
        1 < (nameCol :: idCol :: sampleCols).count idCol) := by
      rw [not_or, one_lt_count_head, one_lt_count_second, not_or, not_or]
      exact ⟨⟨h3, h2⟩, fun he => h3 he.symm, h1⟩
    refine ⟨?_, rfl, h1, h2⟩
    unfold buildMatrixChecked
    rw [if_neg hc]

/-- A row whose sample standard deviation exists has at least two cells. -/
lemma rowStd_some_len (xs : List ℝ) (s : ℝ) (h : rowStd xs = some s) :
    2 ≤ xs.length := by
  by_contra hlt
  push_neg at hlt
  simp [rowStd, hlt] at h

/-- A row whose sample standard deviation exists has it equal to the
square root of the sample variance. -/
lemma rowStd_some_eq (xs : List ℝ) (s : ℝ) (h : rowStd xs = some s) :
    Real.sqrt (sampleVar xs) = s := by
  have h2 := rowStd_some_len xs s h
  unfold rowStd at h
  rw [if_neg (by omega)] at h
  exact Option.some.inj h

/-- A row with zero sample variance is constant, equal to its mean. -/
lemma sampleVar_zero_const (xs : List ℝ) (h2 : 2 ≤ xs.length)
    (hv : sampleVar xs = 0) : ∀ v ∈ xs, v = rowMean xs := by
  have hden : ((xs.length : ℝ) - 1) ≠ 0 := by
    have : (2 : ℝ) ≤ (xs.length : ℝ) := by exact_mod_cast h2
    linarith
  have hnum : (xs.map fun v => (v - rowMean xs) ^ 2).sum = 0 := by
    unfold sampleVar at hv
    rcases div_eq_zero_iff.mp hv with h' | h'
    · exact h'
    · exact absurd h' hden
  intro v hv'
  have hall := all_zero_of_sum_zero (xs.map fun v => (v - rowMean xs) ^ 2)
    (by
      intro x hx
      obtain ⟨w, -, rfl⟩ := List.mem_map.mp hx
      positivity) hnum
  have hsq : (v - rowMean xs) ^ 2 = 0 :=
    hall _ (List.mem_map_of_mem _ hv')
  have := sq_eq_zero_iff.mp hsq
  linarith [this]

/-- C3: a row whose sample standard deviation is exactly zero (a constant
row of length at least two) is standardized to an all-zero row, never to
NaN or infinity: the zero standard deviation is replaced by 1 before the
division. -/
theorem standardizeRow_zero_std (xs : List ℝ) (h : rowStd xs = some 0) :
    standardizeRow xs = xs.map fun _ => some 0 := by
  have h2 := rowStd_some_len xs 0 h
  have hv0 : sampleVar xs = 0 :=
    (Real.sqrt_eq_zero (sampleVar_nonneg xs h2)).mp (rowStd_some_eq xs 0 h)
  have hconst := sampleVar_zero_const xs h2 hv0
  simp only [standardizeRow, h]
  refine List.map_congr_left ?_
  intro v hv
  have := hconst v hv
  simp [replaceZero, this]

/-- Witness for C3 on the constant row `[2, 2, 2]`. -/
theorem standardizeRow_zero_std_witness :
    standardizeRow [2, 2, 2] = ([2, 2, 2] : List ℝ).map fun _ => some 0 :=
  standardizeRow_zero_std [2, 2, 2] (by
    have hv : sampleVar [2, 2, 2] = 0 := by
      simp [sampleVar, rowMean]
      norm_num
    simp [rowStd, hv, Real.sqrt_zero])

/-- C7: a row whose sample standard deviation exists and is nonzero is
standardized to a NaN-free row whose mean is exactly 0 and whose sample
standard deviation is exactly 1. -/
theorem standardizeRow_nonzero_std (xs : List ℝ) (s : ℝ)
    (hs : rowStd xs = some s) (hs0 : s ≠ 0) :
    ∃ ys : List ℝ, standardizeRow xs = ys.map some ∧
      rowMean ys = 0 ∧ rowStd ys = some 1 := by
  have h2 := rowStd_some_len xs s hs
  have hsq := rowStd_some_eq xs s hs
  have hvnn := sampleVar_nonneg xs h2
  have hs2 : s ^ 2 = sampleVar xs := by rw [← hsq, Real.sq_sqrt hvnn]
  have hvne : sampleVar xs ≠ 0 := by
    intro h0
    apply hs0
    rw [← hsq, h0, Real.sqrt_zero]
  have hnR : (2 : ℝ) ≤ (xs.length : ℝ) := by exact_mod_cast h2
  have hn0 : (xs.length : ℝ) ≠ 0 := by linarith
  set m := rowMean xs with hm
  set ys := xs.map fun v => (v - m) / s with hys
  have hlen : ys.length = xs.length := by simp [hys]
  have hsum0 : ys.sum = 0 := by
    have hmap : ys = ((xs.map fun v => v - m).map fun x => x / s) := by
      simp [hys, List.map_map]
    rw [hmap, sum_map_div, sum_map_sub]
    have hz : xs.sum - (xs.length : ℝ) * m = 0 := by
      rw [hm]
      unfold rowMean
      field_simp
    rw [hz, zero_div]
  have hmean : rowMean ys = 0 := by
    unfold rowMean
    rw [hsum0, zero_div]
  have hvar : sampleVar ys = 1 := by
    unfold sampleVar
    rw [hmean]
    have hmap2 : (ys.map fun v => (v - 0) ^ 2) =
        ((xs.map fun v => (v - m) ^ 2).map fun x => x / s ^ 2) := by
      rw [hys, List.map_map, List.map_map]
      refine List.map_congr_left ?_
      intro v hv
      simp [Function.comp, div_pow]
    rw [hmap2, sum_map_div, hlen, div_right_comm]
    have hsv : (xs.map fun v => (v - m) ^ 2).sum / ((xs.length : ℝ) - 1) =
        sampleVar xs := by
      rw [hm]
      unfold sampleVar
      rfl
    rw [hsv, hs2]
    exact div_self hvne
  have hstdy : rowStd ys = some 1 := by
    unfold rowStd
    rw [hlen, if_neg (by omega), hvar, Real.sqrt_one]
  refine ⟨ys, ?_, hmean, hstdy⟩
  simp [standardizeRow, hs, hys, replaceZero, hs0, List.map_map]

/-- Witness for C7 on the row `[0, 2, 4]`, whose sample standard
deviation is 2. -/
theorem standardizeRow_nonzero_std_witness :
    ∃ ys : List ℝ, standardizeRow [0, 2, 4] = ys.map some ∧
      rowMean ys = 0 ∧ rowStd ys = some 1 :=
  standardizeRow_nonzero_std [0, 2, 4] 2 (by
    have hv : sampleVar [0, 2, 4] = 4 := by
      simp [sampleVar, rowMean]
      norm_num
    have h4 : Real.sqrt 4 = 2 := by
      rw [show (4 : ℝ) = 2 ^ 2 by norm_num, Real.sqrt_sq (by norm_num : (0:ℝ) ≤ 2)]
    simp [rowStd, hv, h4]) (by norm_num)

/-- A single-cell row standardizes to a single NaN: the sample standard
deviation of one value is NaN (`ddof = 1`), the `replace(0, 1)` rewrite
does not catch NaN, and the division propagates it. -/
lemma standardizeRow_singleton (x : ℝ) : standardizeRow [x] = [none] := by
  simp [standardizeRow, rowStd]

/-- C10: with exactly one sample column, enabling row standardization
turns every cell of the matrix into NaN (not 0), whether or not log
compression ran first. -/
theorem single_column_standardization_nan (t : Table)
    (nameCol idCol c : String) (lg : Bool) :
    transform lg true (matR (buildMatrix t nameCol idCol [c])) =
      t.rows.map fun _ => [none] := by
  cases lg <;>
    simp only [transform, logMatrix, standardizeMatrix, matR, buildMatrix,
      List.map_map, Bool.false_eq_true, if_false, if_true, eq_self_iff_true] <;>
    refine List.map_congr_left ?_ <;>
    intro r hr <;>
    simp [Function.comp, standardizeRow_singleton]

/-- The natural logarithm of 10 is nonzero. -/
lemma logTenNeZero : Real.log 10 ≠ 0 :=
  ne_of_gt (Real.log_pos (by norm_num))

/-- Log compression of 0 is 0. -/
lemma log10p1_zero : log10p1 0 = 0 := by
  simp [log10p1]

/-- Log compression of 9 is 1. -/
lemma log10p1_nine : log10p1 9 = 1 := by
  unfold log10p1
  norm_num

/-- Log compression of 99 is 2. -/
lemma log10p1_ninetynine : log10p1 99 = 2 := by
  unfold log10p1
  norm_num
  rw [show (100 : ℝ) = 10 ^ (2 : ℕ) by norm_num, Real.log_pow]
  push_cast
  rw [mul_div_assoc, div_self logTenNeZero, mul_one]

/-- The row `[0, 1, 2]` standardizes to `[-1, 0, 1]`. -/
lemma standardizeRow_012 :
    standardizeRow [0, 1, 2] = [some (-1), some 0, some 1] := by
  have hv : sampleVar [0, 1, 2] = 1 := by
    simp [sampleVar, rowMean]
    norm_num
  have hstd : rowStd [(0 : ℝ), 1, 2] = some 1 := by
    simp [rowStd, hv, Real.sqrt_one]
  have hm : rowMean [(0 : ℝ), 1, 2] = 1 := by
    simp [rowMean]
    norm_num
  simp [standardizeRow, hstd, replaceZero, hm]
  norm_num

/-- C5: with both flags enabled the pipeline is exactly row
standardization applied AFTER log compression; applying the two steps in
the other order gives a different matrix already on `[[0, 9, 99]]`. -/
theorem transform_log_before_standardize :
    (∀ m : List (List ℝ),
      transform true true m = standardizeMatrix (logMatrix m)) ∧
    transform true true [[0, 9, 99]] ≠
      (standardizeMatrix [[0, 9, 99]]).map (List.map (Option.map log10p1)) := by
  constructor
  · intro m
    rfl
  · have hpipe : transform true true [[0, 9, 99]] =
        [[some (-1), some 0, some 1]] := by
      show standardizeMatrix (logMatrix [[0, 9, 99]]) = _
      simp only [logMatrix, standardizeMatrix, List.map_cons, List.map_nil,
        log10p1_zero, log10p1_nine, log10p1_ninetynine]
      rw [standardizeRow_012]
    set s := Real.sqrt 2997 with hsdef
    have hspos : 0 < s := Real.sqrt_pos.mpr (by norm_num)
    have hs0 : s ≠ 0 := ne_of_gt hspos
    have hs2 : s ^ 2 = 2997 := Real.sq_sqrt (by norm_num)
    have hv : sampleVar [0, 9, 99] = 2997 := by
      simp [sampleVar, rowMean]
      norm_num
    have hstd : rowStd [(0 : ℝ), 9, 99] = some s := by
      simp [rowStd, hv, hsdef]
    have hm36 : rowMean [(0 : ℝ), 9, 99] = 36 := by
      simp [rowMean]
      norm_num
    have hrow : standardizeRow [0, 9, 99] =
        [some ((0 - 36) / s), some ((9 - 36) / s), some ((99 - 36) / s)] := by
      simp [standardizeRow, hstd, replaceZero, hs0, hm36]
    have hrev : (standardizeMatrix [[0, 9, 99]]).map
          (List.map (Option.map log10p1)) =
        [[some (log10p1 ((0 - 36) / s)), some (log10p1 ((9 - 36) / s)),
          some (log10p1 ((99 - 36) / s))]] := by
      simp only [standardizeMatrix, List.map_cons, List.map_nil]
      rw [hrow]
      simp
    intro heq
    rw [hpipe, hrev] at heq
    simp only [List.cons.injEq, Option.some.injEq, and_true] at heq
    have hmid : (0 : ℝ) = log10p1 ((9 - 36) / s) := heq.2.1
    have h27 : ((9 : ℝ) - 36) / s = -27 / s := by norm_num
    rw [h27] at hmid
    have hlog : Real.log (-27 / s + 1) = 0 := by
      unfold log10p1 at hmid
      rcases div_eq_zero_iff.mp hmid.symm with h | h
      · exact h
      · exact absurd h logTenNeZero
    rcases (Real.log_eq_zero).mp hlog with h | h | h
    · have : s = 27 := by
        field_simp at h
        linarith
      rw [this] at hs2
      norm_num at hs2
    · field_simp at h
    · have : s = 27 / 2 := by
        field_simp at h
        linarith
      rw [this] at hs2
      norm_num at hs2

/-- The three image export formats requested at lines 111-113. -/
inductive ExportFormat where
  | svg
  | pdf
  | png
deriving DecidableEq, Repr

/-- Outcome of the export block: either the three download buttons (with
their artifact bytes), or the single error message of the `except` arm. -/
inductive ExportOutcome where
  | buttons (svgData pdfData pngData : String)
  | exportError (msg : String)
deriving DecidableEq, Repr

/-- Lines 109-122: one `try` wraps the three `to_image` calls and all
three download buttons; the first encoder failure jumps to the single
`except` arm, so no button is rendered after any failure. -/
def exportStep (enc : ExportFormat → Except String String) : ExportOutcome :=
  match enc .svg with
  | .error e => .exportError e
  | .ok svgData =>
    match enc .pdf with
    | .error e => .exportError e
    | .ok pdfData =>
      match enc .png with
      | .error e => .exportError e
      | .ok pngData => .buttons svgData pdfData pngData

/-- The artifacts actually offered for download by an export outcome. -/
def offeredDownloads : ExportOutcome → List String
  | .buttons s p g => [s, p, g]
  | .exportError _ => []

/-- Result of one run of the `else` branch at lines 43-128: either the
empty-selection warning (line 44), or a rendered chart with the
transformed matrix followed by the export outcome. -/
inductive AppResult where
  | emptySelectionWarning
  | ran (chartShown : Bool) (matrix : List (List (Option ℝ)))
      (exportOut : ExportOutcome)

/-- Lines 43-128: the run of the app once a file is loaded. An empty
sample selection only shows the warning; otherwise the matrix is built,
transformed, charted (before the export block runs) and exported. -/
noncomputable def appMain (t : Table) (nameCol idCol : String)
    (sampleCols : List String) (useLog useNorm : Bool)
    (enc : ExportFormat → Except String String) : AppResult :=
  if sampleCols.isEmpty then .emptySelectionWarning
  else
    .ran true (transform useLog useNorm (matR (buildMatrix t nameCol idCol sampleCols)))
      (exportStep enc)

/-- C8: an empty sample selection is surfaced as the warning alone — the
run builds no matrix, applies no transform, and produces no export
artifact. -/
theorem emptySelection_warning (t : Table) (nameCol idCol : String)
    (sampleCols : List String) (useLog useNorm : Bool)
    (enc : ExportFormat → Except String String) (h : sampleCols = []) :
    appMain t nameCol idCol sampleCols useLog useNorm enc =
      .emptySelectionWarning := by
  subst h
  simp [appMain]

/-- Witness for C8 at a concrete table and encoder. -/
theorem emptySelection_warning_witness :
    appMain sampleTable "Name" "ID" [] true true (fun _ => .ok "bytes") =
      AppResult.emptySelectionWarning :=
  emptySelection_warning sampleTable "Name" "ID" [] true true
    (fun _ => .ok "bytes") rfl

/-- An encoder that produces SVG and PNG but fails on PDF. -/
def failingPdfEnc : ExportFormat → Except String String :=
  fun f =>
    match f with
    | .svg => .ok "svg bytes"
    | .pdf => .error "pdf encoder unavailable"
    | .png => .ok "png bytes"

/-- C9 counterexample: with an encoder that produces the SVG artifact but
fails on the PDF one, the successfully produced SVG is NOT available for
download — the single `try` around all three formats aborts every button. -/
theorem export_single_try_counterexample :
    failingPdfEnc .svg = .ok "svg bytes" ∧
    exportStep failingPdfEnc = .exportError "pdf encoder unavailable" ∧
    offeredDownloads (exportStep failingPdfEnc) = [] :=
  ⟨rfl, rfl, rfl⟩

/-- C9 amended: when any requested artifact fails to encode, the whole
export block falls to the single `except` arm — one error message is
shown and no download is offered, even for formats that were produced
successfully; the already-rendered interactive chart is unaffected (it is
shown before the export block). -/
theorem export_failure_blocks_all_downloads (t : Table)
    (nameCol idCol : String) (sampleCols : List String)
    (useLog useNorm : Bool) (enc : ExportFormat → Except String String)
    (hne : sampleCols ≠ [])
    (hfail : ∃ f e, enc f = .error e) :
    ∃ m e,
      appMain t nameCol idCol sampleCols useLog useNorm enc =
        .ran true m (.exportError e) ∧
      offeredDownloads (.exportError e) = [] := by
  have hback : ∃ e, exportStep enc = .exportError e := by
    unfold exportStep
    obtain ⟨f, e0, hf⟩ := hfail
    cases hsvg : enc .svg with
    | error e => exact ⟨e, rfl⟩
    | ok sd =>
      cases hpdf : enc .pdf with
      | error e => exact ⟨e, rfl⟩
      | ok pd =>
        cases hpng : enc .png with
        | error e => exact ⟨e, rfl⟩
        | ok gd =>
          exfalso
          cases f with
          | svg => rw [hsvg] at hf; cases hf
          | pdf => rw [hpdf] at hf; cases hf
          | png => rw [hpng] at hf; cases hf
  obtain ⟨e, he⟩ := hback
  refine ⟨transform useLog useNorm (matR (buildMatrix t nameCol idCol sampleCols)),
    e, ?_, rfl⟩
  unfold appMain
  rw [if_neg (by simpa using hne), he]

/-- Witness for the amended C9 at a concrete table and the PDF-failing
encoder. -/
theorem export_failure_blocks_all_downloads_witness :
    ∃ m e,
      appMain sampleTable "Name" "ID" ["S1"] true false failingPdfEnc =
        .ran true m (.exportError e) ∧
      offeredDownloads (.exportError e) = [] :=
  export_failure_blocks_all_downloads sampleTable "Name" "ID" ["S1"]
    true false failingPdfEnc (by decide) ⟨.pdf, "pdf encoder unavailable", rfl⟩
